import Mathlib

/-!
Shallow embedding of the record validator in `src/main.py` (classes `Entry`
and `Validator`, functions `show_summary`): nine per-field string predicates
implemented with anchored regular expressions or numeric parsing, a
short-circuit classifier `parse` / `parse_entry`, record construction from a
key-value mapping, and the error-summary aggregation.

Strings are modelled through their character lists.  Python's anchored
`re.match` with a pattern of the form `^core$` is modelled by
`pyMatchDollar`: `$` matches at the very end of the string, or just before a
newline that ends the string.  Python's `\d` is modelled as an ASCII digit
and `\s` as ASCII whitespace; Python floats are modelled as exact rationals
of plain decimal literals, which is faithful on the decimal strings compared
here.
-/

namespace Lab2

/-! ## Character classes -/

/-- Python's `\s` (ASCII whitespace: space, tab, newline, carriage return,
vertical tab, form feed). -/
def pyIsSpace (c : Char) : Bool :=
  c == ' ' || c == '\t' || c == '\n' || c == '\r' || c == '\x0b' || c == '\x0c'

/-- The range `а-я` (U+0430 to U+044F) used by the source's character classes. -/
def isCyrLower (c : Char) : Bool :=
  decide (0x430 ≤ c.toNat ∧ c.toNat ≤ 0x44F)

/-- The range `А-Я` (U+0410 to U+042F) used by the source's character classes. -/
def isCyrUpper (c : Char) : Bool :=
  decide (0x410 ≤ c.toNat ∧ c.toNat ≤ 0x42F)

/-- The ranges `a-z` and `A-Z`. -/
def isLatinLetter (c : Char) : Bool :=
  decide ((0x41 ≤ c.toNat ∧ c.toNat ≤ 0x5A) ∨ (0x61 ≤ c.toNat ∧ c.toNat ≤ 0x7A))

/-- Python `re.match` against an anchored pattern `^core$`, where `core`
decides membership in the core pattern's language: `$` matches at the end of
the string or just before a newline that ends the string. -/
def pyMatchDollar (core : List Char → Bool) (s : String) : Bool :=
  core s.data || (s.data.getLast? == some '\n' && core s.data.dropLast)

/-! ## The nine field validators (`Validator.check_*` in `src/main.py`) -/

/-- Core language of the telephone pattern: literal `+7-(`, three digits,
`)-`, three digits, `-`, two digits, `-`, two digits. -/
def telCore : List Char → Bool
  | ['+', '7', '-', '(', a, b, c, ')', '-', d, e, f, '-', g, h, '-', i, j] =>
      a.isDigit && b.isDigit && c.isDigit && d.isDigit && e.isDigit &&
      f.isDigit && g.isDigit && h.isDigit && i.isDigit && j.isDigit
  | _ => false

/-- `Validator.check_telephone`. -/
def check_telephone (telephone : String) : Bool :=
  pyMatchDollar telCore telephone

/-- Core language of the SNILS pattern: exactly eleven digits. -/
def snilsCore (cs : List Char) : Bool :=
  cs.length == 11 && cs.all Char.isDigit

/-- `Validator.check_snils`. -/
def check_snils (snils : String) : Bool :=
  pyMatchDollar snilsCore snils

/-- Core language of the passport-series pattern: two digits, a space, two
digits. -/
def passportCore : List Char → Bool
  | [a, b, ' ', c, d] => a.isDigit && b.isDigit && c.isDigit && d.isDigit
  | _ => false

/-- `Validator.check_passport`. -/
def check_passport (passport : String) : Bool :=
  pyMatchDollar passportCore passport

/-- The address pattern's letter class: Cyrillic letters, hyphen, whitespace. -/
def addrChar (c : Char) : Bool :=
  isCyrLower c || isCyrUpper c || c == '-' || pyIsSpace c

/-- Core language of the address pattern: one or more characters of
`addrChar` followed by one or more digits. -/
def addrCore (cs : List Char) : Bool :=
  (List.range cs.length).any fun k =>
    k != 0 && (cs.take k).all addrChar && (cs.drop k).all Char.isDigit

/-- `Validator.check_address`. -/
def check_address (address : String) : Bool :=
  pyMatchDollar addrCore address

/-- The university pattern's class: Cyrillic letters, hyphen, whitespace,
period. -/
def univChar (c : Char) : Bool :=
  isCyrLower c || isCyrUpper c || c == '-' || pyIsSpace c || c == '.'

/-- Core language of the university pattern: one or more characters of
`univChar`. -/
def univCore (cs : List Char) : Bool :=
  !cs.isEmpty && cs.all univChar

/-- `Validator.check_university`. -/
def check_university (university : String) : Bool :=
  pyMatchDollar univCore university

/-- The academic-degree pattern's class: Latin letters, Cyrillic letters
`а-яА-Я`, space, hyphen. -/
def degreeChar (c : Char) : Bool :=
  isLatinLetter c || isCyrLower c || isCyrUpper c || c == ' ' || c == '-'

/-- Core language of the academic-degree pattern: one or more characters of
`degreeChar`. -/
def degreeCore (cs : List Char) : Bool :=
  !cs.isEmpty && cs.all degreeChar

/-- `Validator.check_degree`. -/
def check_degree (degree : String) : Bool :=
  pyMatchDollar degreeCore degree

/-- The worldview pattern's class, written in the source as its own literal
identical to the academic-degree one. -/
def worldviewChar (c : Char) : Bool :=
  isLatinLetter c || isCyrLower c || isCyrUpper c || c == ' ' || c == '-'

/-- Core language of the worldview pattern: one or more characters of
`worldviewChar`. -/
def worldviewCore (cs : List Char) : Bool :=
  !cs.isEmpty && cs.all worldviewChar

/-- `Validator.check_worldview`. -/
def check_worldview (worldview : String) : Bool :=
  pyMatchDollar worldviewCore worldview

/-! ## Numeric validators -/

/-- The natural number denoted by a digit string. -/
def digitsVal (cs : List Char) : Nat :=
  cs.foldl (fun a c => 10 * a + (c.toNat - 48)) 0

/-- Python `float` restricted to plain decimal literals (optional sign,
digits with at most one point and at least one digit).  The result is the
exact value as a scaled integer: `some (m, d)` denotes the rational
`m / 10 ^ d`.  Non-numeric input yields `none`, modelling the `ValueError`
branch. -/
def parsePyFloat (s : String) : Option (ℤ × ℕ) :=
  let sgnRest : ℤ × List Char :=
    match s.data with
    | '+' :: r => (1, r)
    | '-' :: r => (-1, r)
    | r => (1, r)
  let ip := sgnRest.2.takeWhile Char.isDigit
  match sgnRest.2.dropWhile Char.isDigit with
  | [] => if ip.isEmpty then none else some (sgnRest.1 * digitsVal ip, 0)
  | '.' :: fp =>
      if (ip.isEmpty && fp.isEmpty) || !fp.all Char.isDigit then none
      else some (sgnRest.1 * (digitsVal ip * 10 ^ fp.length + digitsVal fp), fp.length)
  | _ => none

/-- The rational value denoted by a scaled integer `(m, d)`, namely
`m / 10 ^ d`. -/
def floatVal (p : ℤ × ℕ) : ℚ :=
  (p.1 : ℚ) / 10 ^ p.2

/-- `Validator.check_height`: parse as a float, then the strict bounds
`1.20 < h < 2.10`, stated over the scaled integers (`m / 10 ^ d > 120 / 100`
iff `120 * 10 ^ d < m * 100`, both denominators being positive). -/
def check_height (height : String) : Bool :=
  match parsePyFloat height with
  | none => false
  | some p => decide (120 * 10 ^ p.2 < p.1 * 100 ∧ p.1 * 100 < 210 * 10 ^ p.2)

/-- Python `int` restricted to an optional sign followed by digits.
Non-numeric input yields `none`, modelling the `ValueError` branch. -/
def parsePyInt (s : String) : Option ℤ :=
  let sgnRest : ℤ × List Char :=
    match s.data with
    | '+' :: r => (1, r)
    | '-' :: r => (-1, r)
    | r => (1, r)
  if sgnRest.2.isEmpty || !sgnRest.2.all Char.isDigit then none
  else some (sgnRest.1 * digitsVal sgnRest.2)

/-- `Validator.check_work_experience`: parse as an int, then
`2 ≤ years < 20`. -/
def check_work_experience (work_experience : String) : Bool :=
  match parsePyInt work_experience with
  | none => false
  | some iyears => decide (2 ≤ iyears ∧ iyears < 20)

/-! ## Records and the classifier -/

/-- The record type `Entry`: nine named string fields. -/
structure Entry where
  telephone : String
  height : String
  snils : String
  passport_series : String
  university : String
  work_experience : String
  academic_degree : String
  worldview : String
  address : String

/-- `Validator.parse_entry`: the chained `if`/`elif` check, returning the
list of failing keys, which by construction is empty or a single key. -/
def parse_entry (entry : Entry) : List String :=
  if !check_telephone entry.telephone then ["telephone"]
  else if !check_snils entry.snils then ["snils"]
  else if !check_passport entry.passport_series then ["passport_series"]
  else if !check_height entry.height then ["height"]
  else if !check_work_experience entry.work_experience then ["work_experience"]
  else if !check_address entry.address then ["address"]
  else if !check_university entry.university then ["university"]
  else if !check_degree entry.academic_degree then ["academic_degree"]
  else if !check_worldview entry.worldview then ["worldview"]
  else []

/-- One iteration of the loop in `Validator.parse`: append the failing-key
list to the first accumulator when non-empty, else append the record to the
second. -/
def parseStep (acc : List (List String) × List Entry) (i : Entry) :
    List (List String) × List Entry :=
  let illkeys := parse_entry i
  if illkeys.length ≠ 0 then (acc.1 ++ [illkeys], acc.2)
  else (acc.1, acc.2 ++ [i])

/-- `Validator.parse`: fold the loop over the entries, starting from two
empty accumulators. -/
def parse (entries : List Entry) : List (List String) × List Entry :=
  entries.foldl parseStep ([], [])

/-- The nine field checks of `parse_entry` as (key, result) pairs, in the
source's checking order. -/
def fieldChecks (entry : Entry) : List (String × Bool) :=
  [("telephone", check_telephone entry.telephone),
   ("snils", check_snils entry.snils),
   ("passport_series", check_passport entry.passport_series),
   ("height", check_height entry.height),
   ("work_experience", check_work_experience entry.work_experience),
   ("address", check_address entry.address),
   ("university", check_university entry.university),
   ("academic_degree", check_degree entry.academic_degree),
   ("worldview", check_worldview entry.worldview)]

/-! ## Record construction from a key-value mapping -/

/-- Python dict lookup `dic[k]` over an association list: the value, or a
`KeyError` carrying the missing key. -/
def dictGet (dic : List (String × String)) (k : String) : Except String String :=
  match dic.find? (fun p => p.1 == k) with
  | some p => .ok p.2
  | none => .error k

/-- `Entry.__init__`: reads the nine required keys from the mapping in the
source's order; the first missing key raises. -/
def Entry.ofDict (dic : List (String × String)) : Except String Entry := do
  let telephone ← dictGet dic "telephone"
  let height ← dictGet dic "height"
  let snils ← dictGet dic "snils"
  let passport_series ← dictGet dic "passport_series"
  let university ← dictGet dic "university"
  let work_experience ← dictGet dic "work_experience"
  let academic_degree ← dictGet dic "academic_degree"
  let worldview ← dictGet dic "worldview"
  let address ← dictGet dic "address"
  return { telephone, height, snils, passport_series, university,
           work_experience, academic_degree, worldview, address }

/-- `Validator.__init__`: builds the `Entry` list record by record; the first
failing construction aborts the whole batch with its error. -/
def validatorEntries : List (List (String × String)) → Except String (List Entry)
  | [] => .ok []
  | dic :: rest => do
      let e ← Entry.ofDict dic
      let es ← validatorEntries rest
      return e :: es

/-- The nine required record keys, in the order `Entry.__init__` reads them. -/
def requiredKeys : List String :=
  ["telephone", "height", "snils", "passport_series", "university",
   "work_experience", "academic_degree", "worldview", "address"]

/-- Whether the mapping has the key. -/
def hasKey (dic : List (String × String)) (k : String) : Bool :=
  (dic.find? (fun p => p.1 == k)).isSome

/-! ## Error summary (`show_summary` in `src/main.py`) -/

/-- The `errors_count` dict literal of `show_summary`, in its insertion
order. -/
def initialCounts : List (String × Nat) :=
  [("telephone", 0), ("height", 0), ("snils", 0), ("passport_series", 0),
   ("university", 0), ("work_experience", 0), ("academic_degree", 0),
   ("worldview", 0), ("address", 0)]

/-- The field order of the summary output: the `errors_count` dict's key
order. -/
def summaryKeys : List String :=
  ["telephone", "height", "snils", "passport_series", "university",
   "work_experience", "academic_degree", "worldview", "address"]

/-- `errors_count[j] += 1` over an association list: a `KeyError` when the
key is absent. -/
def bumpCount : List (String × Nat) → String → Except String (List (String × Nat))
  | [], k => .error k
  | p :: rest, k =>
      if p.1 == k then .ok ((p.1, p.2 + 1) :: rest)
      else do
        let r ← bumpCount rest k
        return p :: r

/-- One iteration of the inner loop of `show_summary`: bump the key's count
and the running total. -/
def summaryStep (st : Nat × List (String × Nat)) (j : String) :
    Except String (Nat × List (String × Nat)) := do
  let d ← bumpCount st.2 j
  return (st.1 + 1, d)

/-- The counting part of `show_summary`: the total error count and the
per-field counts, folded over all failing keys of all invalid records. -/
def show_summary (result : List (List String)) :
    Except String (Nat × List (String × Nat)) :=
  result.foldlM (fun st i => i.foldlM summaryStep st) (0, initialCounts)

/-- The lines `show_summary` prints to stdout (blank-line padding of the
`print` calls aside): header, caption, then one line per field. -/
def summaryLinesConsole (total : Nat) (counts : List (String × Nat)) : List String :=
  ("Всего ошибок: " ++ toString total) ::
    "Количество ошибок по типам: " ::
    counts.map (fun p => p.1 ++ ": " ++ toString p.2)

/-- The lines `show_summary` writes to the output file: header, then one
newline-terminated line per field. -/
def summaryLinesFile (total : Nat) (counts : List (String × Nat)) : List String :=
  ("Всего ошибок: " ++ toString total ++ "\n") ::
    counts.map (fun p => p.1 ++ ": " ++ toString p.2 ++ "\n")

/-! ## Spec-side renderings used to compare the code against the spec -/

/-- Modelled from the spec: a Cyrillic letter, read as the Unicode Cyrillic
block U+0400 to U+04FF. -/
def specCyrillicLetter (c : Char) : Bool :=
  decide (0x400 ≤ c.toNat ∧ c.toNat ≤ 0x4FF)

/-- Modelled from the spec: the academic-degree and worldview character
class as the spec words it, one of Latin letters, Cyrillic letters, hyphen,
whitespace. -/
def specDegreeChar (c : Char) : Bool :=
  isLatinLetter c || specCyrillicLetter c || c == '-' || pyIsSpace c

/-- Modelled from the spec: the spec's acceptance condition for
academic-degree and worldview strings, one or more characters of
`specDegreeChar`, anchored start-to-end. -/
def specDegreeAccepts (s : String) : Bool :=
  !s.data.isEmpty && s.data.all specDegreeChar

/-- The exact telephone shape the claim describes: literal `+7-(`, three
digits, `)-`, three digits, `-`, two digits, `-`, two digits and nothing
else. -/
def telShape (cs : List Char) : Prop :=
  ∃ a b c d e f g h i j : Char,
    a.isDigit = true ∧ b.isDigit = true ∧ c.isDigit = true ∧
    d.isDigit = true ∧ e.isDigit = true ∧ f.isDigit = true ∧
    g.isDigit = true ∧ h.isDigit = true ∧ i.isDigit = true ∧ j.isDigit = true ∧
    cs = ['+', '7', '-', '(', a, b, c, ')', '-', d, e, f, '-', g, h, '-', i, j]

/-! ## Helper lemmas -/

/-- Membership in the language of an anchored `^core$` pattern: either the
core matches the whole string, or it matches everything before one final
newline. -/
theorem pyMatchDollar_iff (core : List Char → Bool) (s : String) :
    pyMatchDollar core s = true ↔
      core s.data = true ∨ ∃ t, s.data = t ++ ['\n'] ∧ core t = true := by
  unfold pyMatchDollar
  simp only [Bool.or_eq_true, Bool.and_eq_true, beq_iff_eq]
  constructor
  · rintro (h | ⟨hl, hc⟩)
    · exact Or.inl h
    · obtain ⟨t, ht⟩ := List.getLast?_eq_some_iff.mp hl
      rw [ht, List.dropLast_concat] at hc
      exact Or.inr ⟨t, ht, hc⟩
  · rintro (h | ⟨t, hs, hc⟩)
    · exact Or.inl h
    · refine Or.inr ⟨?_, ?_⟩ <;> rw [hs]
      · exact List.getLast?_concat t
      · rw [List.dropLast_concat]; exact hc

/-- Appending one newline to a match that does not already end in a newline
still matches, through the `$`-before-final-newline rule. -/
theorem pyMatchDollar_newline (core : List Char → Bool) (s : String)
    (h : s.data.getLast? ≠ some '\n') (hs : pyMatchDollar core s = true) :
    pyMatchDollar core (s ++ "\n") = true := by
  have hcore : core s.data = true := by
    rcases (pyMatchDollar_iff core s).mp hs with h1 | ⟨t, ht, _⟩
    · exact h1
    · exact absurd (by rw [ht]; exact List.getLast?_concat t) h
  apply (pyMatchDollar_iff core _).mpr
  refine Or.inr ⟨s.data, ?_, hcore⟩
  rw [String.data_append]

/-- The telephone core language is exactly the ten-digit shape `telShape`. -/
theorem telCore_iff (cs : List Char) : telCore cs = true ↔ telShape cs := by
  constructor
  · intro hcs
    unfold telCore at hcs
    split at hcs
    next a b c d e f g h i j =>
      simp only [Bool.and_eq_true, and_assoc] at hcs
      obtain ⟨h1, h2, h3, h4, h5, h6, h7, h8, h9, h10⟩ := hcs
      exact ⟨a, b, c, d, e, f, g, h, i, j,
        h1, h2, h3, h4, h5, h6, h7, h8, h9, h10, rfl⟩
    next => exact absurd hcs (by simp)
  · rintro ⟨a, b, c, d, e, f, g, h, i, j,
      h1, h2, h3, h4, h5, h6, h7, h8, h9, h10, rfl⟩
    simp [telCore, h1, h2, h3, h4, h5, h6, h7, h8, h9, h10]

/-- The SNILS core language is exactly the eleven-digit strings. -/
theorem snilsCore_iff (cs : List Char) :
    snilsCore cs = true ↔ cs.length = 11 ∧ ∀ c ∈ cs, c.isDigit = true := by
  simp [snilsCore, List.all_eq_true]

/-- The worldview core language, characterized through the academic-degree
character class. -/
theorem worldviewCore_iff (cs : List Char) :
    worldviewCore cs = true ↔ cs ≠ [] ∧ ∀ c ∈ cs, degreeChar c = true := by
  simp [worldviewCore, worldviewChar, degreeChar, List.all_eq_true,
    List.isEmpty_iff, Bool.not_eq_true']

/-- The integer-level lower height bound agrees with the rational strict
bound `1.20 < value`. -/
theorem height_lower_iff (p : ℤ × ℕ) :
    120 * 10 ^ p.2 < p.1 * 100 ↔ (1.20 : ℚ) < floatVal p := by
  unfold floatVal
  have h10 : (0 : ℚ) < 10 ^ p.2 := by positivity
  rw [show (1.20 : ℚ) = 120 / 100 by norm_num, div_lt_div_iff₀ (by norm_num) h10]
  constructor <;> intro h <;> exact_mod_cast h

/-- The integer-level upper height bound agrees with the rational strict
bound `value < 2.10`. -/
theorem height_upper_iff (p : ℤ × ℕ) :
    p.1 * 100 < 210 * 10 ^ p.2 ↔ floatVal p < (2.10 : ℚ) := by
  unfold floatVal
  have h10 : (0 : ℚ) < 10 ^ p.2 := by positivity
  rw [show (2.10 : ℚ) = 210 / 100 by norm_num, div_lt_div_iff₀ h10 (by norm_num)]
  constructor <;> intro h <;> exact_mod_cast h

/-- Complementary Bool filters split a list's length. -/
theorem length_filter_add_length_filter_not {α : Type} (l : List α) (p : α → Bool) :
    (l.filter p).length + (l.filter fun a => !p a).length = l.length := by
  induction l with
  | nil => rfl
  | cons a l ih =>
      by_cases h : p a <;> simp [List.filter_cons, h, ← ih] <;> omega

/-- The fold of `Validator.parse` described in closed form: starting from any
accumulator pair, it appends the failing-key lists of the failing records to
the first component and the passing records to the second, keeping input
order. -/
theorem parse_foldl (entries : List Entry) (acc : List (List String) × List Entry) :
    entries.foldl parseStep acc =
      (acc.1 ++ ((entries.filter fun e => !(parse_entry e).isEmpty).map parse_entry),
       acc.2 ++ (entries.filter fun e => (parse_entry e).isEmpty)) := by
  induction entries generalizing acc with
  | nil => simp
  | cons e rest ih =>
      rw [List.foldl_cons, ih]
      by_cases h : (parse_entry e).isEmpty
      · have hlen : (parse_entry e).length = 0 := by
          simpa [List.isEmpty_iff, List.length_eq_zero] using h
        simp [parseStep, List.filter_cons, h, hlen]
      · have hlen : (parse_entry e).length ≠ 0 := by
          simp only [List.isEmpty_iff] at h
          simpa [List.length_eq_zero] using h
        simp [parseStep, List.filter_cons, h, hlen]

/-! ## Claim theorems -/

/-- Claim C1: `parse` assigns each record to exactly one of the two output
sequences: the invalid side is exactly the failing-key lists of the records
that fail some check, in input order, the valid side is exactly the records
passing all checks, in input order, and the two lengths sum to the input
length. -/
theorem c1_parse_partitions (entries : List Entry) :
    (parse entries).1.length + (parse entries).2.length = entries.length ∧
    (parse entries).1 =
      ((entries.filter fun e => !(parse_entry e).isEmpty).map parse_entry) ∧
    (parse entries).2 = entries.filter fun e => (parse_entry e).isEmpty := by
  have h := parse_foldl entries ([], [])
  rw [parse, h]
  refine ⟨?_, by simp, by simp⟩
  simp only [List.nil_append, List.length_map]
  have := length_filter_add_length_filter_not entries fun e => (parse_entry e).isEmpty
  simp only [← this]
  have hswap : (entries.filter fun e => !(parse_entry e).isEmpty) =
      entries.filter fun e => !((fun e => (parse_entry e).isEmpty) e) := rfl
  rw [hswap]
  omega

/-- Claim C2: `parse_entry` checks the nine fields in the fixed source order
and stops at the first failure, reporting exactly that field's name as a
one-element list; in particular a record failing both the telephone and the
SNILS checks reports only `telephone`. -/
theorem c2_parse_entry_short_circuit (entry : Entry) :
    parse_entry entry =
      (match (fieldChecks entry).find? (fun p => !p.2) with
        | some p => [p.1]
        | none => []) ∧
    (check_telephone entry.telephone = false → check_snils entry.snils = false →
      parse_entry entry = ["telephone"]) := by
  constructor
  · unfold parse_entry fieldChecks
    cases check_telephone entry.telephone <;>
      cases check_snils entry.snils <;>
        cases check_passport entry.passport_series <;>
          cases check_height entry.height <;>
            cases check_work_experience entry.work_experience <;>
              cases check_address entry.address <;>
                cases check_university entry.university <;>
                  cases check_degree entry.academic_degree <;>
                    cases check_worldview entry.worldview <;> rfl
  · intro h1 h2
    simp [parse_entry, h1]

/-- Claim C4: `check_height s` is true iff `s` parses as a decimal number
whose value lies strictly between 1.20 and 2.10; the boundaries `1.20` and
`2.10` are invalid, `1.21` and `2.09` are valid, and non-numeric strings are
invalid. -/
theorem c4_check_height :
    (∀ s : String, check_height s = true ↔
        ∃ p, parsePyFloat s = some p ∧
          (1.20 : ℚ) < floatVal p ∧ floatVal p < (2.10 : ℚ)) ∧
    check_height "1.20" = false ∧ check_height "2.10" = false ∧
    check_height "1.21" = true ∧ check_height "2.09" = true ∧
    check_height "abc" = false := by
  refine ⟨fun s => ?_, by decide, by decide, by decide, by decide, by decide⟩
  unfold check_height
  cases hp : parsePyFloat s with
  | none => simp
  | some p =>
      simp only [decide_eq_true_eq, Option.some.injEq]
      constructor
      · rintro ⟨h1, h2⟩
        exact ⟨p, rfl, (height_lower_iff p).mp h1, (height_upper_iff p).mp h2⟩
      · rintro ⟨q, hq, hl, hu⟩
        obtain rfl : p = q := hq
        exact ⟨(height_lower_iff p).mpr hl, (height_upper_iff p).mpr hu⟩

/-- Claim C5: `check_work_experience s` is true iff `s` parses as an integer
`n` with `2 ≤ n < 20`; `2` and `19` are valid, `1` and `20` invalid, and
non-integer strings are invalid. -/
theorem c5_check_work_experience :
    (∀ s : String, check_work_experience s = true ↔
        ∃ n : ℤ, parsePyInt s = some n ∧ 2 ≤ n ∧ n < 20) ∧
    check_work_experience "2" = true ∧ check_work_experience "19" = true ∧
    check_work_experience "1" = false ∧ check_work_experience "20" = false ∧
    check_work_experience "2.5" = false := by
  refine ⟨fun s => ?_, by decide, by decide, by decide, by decide, by decide⟩
  unfold check_work_experience
  cases hp : parsePyInt s with
  | none => simp
  | some n => simp

/-- Claim C3, counterexample: `check_snils` also accepts eleven digits
followed by one newline, a string that is not of length 11, because the
pattern's `$` matches before a final newline. -/
theorem c3_snils_counterexample :
    check_snils "12345678901\n" = true ∧ "12345678901\n".data.length ≠ 11 := by
  decide

/-- Claim C3, amended: `check_snils s` is true iff `s` is exactly eleven
digit characters, or exactly eleven digit characters followed by a single
trailing newline. -/
theorem c3_snils_amended (s : String) :
    check_snils s = true ↔
      (s.data.length = 11 ∧ ∀ c ∈ s.data, c.isDigit = true) ∨
      ∃ t, s.data = t ++ ['\n'] ∧ t.length = 11 ∧ ∀ c ∈ t, c.isDigit = true := by
  rw [check_snils, pyMatchDollar_iff]
  exact or_congr (snilsCore_iff s.data)
    (exists_congr fun t => and_congr_right fun _ => snilsCore_iff t)

/-- Claim C6, counterexample: `check_telephone` also accepts a well-formed
number followed by one newline, which is not exactly the 18-character
literal shape, because the pattern's `$` matches before a final newline. -/
theorem c6_telephone_counterexample :
    check_telephone "+7-(123)-456-78-90\n" = true ∧
    "+7-(123)-456-78-90\n".data.length ≠ 18 := by
  decide

/-- Claim C6, amended: `check_telephone s` is true iff `s` is exactly the
literal `+7-(`, three digits, `)-`, three digits, `-`, two digits, `-`, two
digits, or exactly that shape followed by a single trailing newline. -/
theorem c6_telephone_amended (s : String) :
    check_telephone s = true ↔
      telShape s.data ∨ ∃ t, s.data = t ++ ['\n'] ∧ telShape t := by
  rw [check_telephone, pyMatchDollar_iff]
  exact or_congr (telCore_iff s.data)
    (exists_congr fun t => and_congr_right fun _ => telCore_iff t)

/-- Claim C9, counterexample: the spec's character class reads `whitespace`,
but the source patterns contain only the literal space character, so a
string with a tab is accepted by the spec's class and rejected by both
`check_degree` and `check_worldview`. -/
theorem c9_worldview_counterexample :
    specDegreeAccepts "a\tb" = true ∧ check_degree "a\tb" = false ∧
    check_worldview "a\tb" = false := by
  decide

/-- Claim C9, amended: `check_worldview` agrees with `check_degree` on every
string, and both accept exactly the non-empty strings over the class
`degreeChar` (Latin letters, Cyrillic `а-я`/`А-Я`, space, hyphen), with one
optional trailing newline admitted by the `$` anchor. -/
theorem c9_worldview_amended (s : String) :
    check_worldview s = check_degree s ∧
    (check_worldview s = true ↔
      (s.data ≠ [] ∧ ∀ c ∈ s.data, degreeChar c = true) ∨
      ∃ t, s.data = t ++ ['\n'] ∧ t ≠ [] ∧ ∀ c ∈ t, degreeChar c = true) := by
  constructor
  · rfl
  · rw [check_worldview, pyMatchDollar_iff]
    exact or_congr (worldviewCore_iff s.data)
      (exists_congr fun t => and_congr_right fun _ => worldviewCore_iff t)

/-- Claim C10, counterexample: the claimed closure under appending one
newline fails on strings that already end in a newline: eleven digits plus
one newline pass `check_snils`, but appending a second newline fails. -/
theorem c10_newline_counterexample :
    check_snils "12345678901\n" = true ∧
    check_snils ("12345678901\n" ++ "\n") = false := by
  decide

/-- Claim C10, amended: for every string that does not already end in a
newline, each of the seven regex validators accepts the string with one
newline appended whenever it accepts the string itself, because each
pattern's `$` also matches immediately before a single trailing newline. -/
theorem c10_trailing_newline (s : String) (h : s.data.getLast? ≠ some '\n') :
    (check_telephone s = true → check_telephone (s ++ "\n") = true) ∧
    (check_snils s = true → check_snils (s ++ "\n") = true) ∧
    (check_passport s = true → check_passport (s ++ "\n") = true) ∧
    (check_address s = true → check_address (s ++ "\n") = true) ∧
    (check_university s = true → check_university (s ++ "\n") = true) ∧
    (check_degree s = true → check_degree (s ++ "\n") = true) ∧
    (check_worldview s = true → check_worldview (s ++ "\n") = true) :=
  ⟨pyMatchDollar_newline telCore s h, pyMatchDollar_newline snilsCore s h,
   pyMatchDollar_newline passportCore s h, pyMatchDollar_newline addrCore s h,
   pyMatchDollar_newline univCore s h, pyMatchDollar_newline degreeCore s h,
   pyMatchDollar_newline worldviewCore s h⟩

/-- Witness for `c10_trailing_newline` at the concrete input
`"12345678901"`. -/
theorem c10_trailing_newline_witness :
    ("12345678901" : String).data.getLast? ≠ some '\n' ∧
    check_snils ("12345678901" ++ "\n") = true :=
  ⟨by decide, (c10_trailing_newline "12345678901" (by decide)).2.1 (by decide)⟩

/-- A successful `Except` bind splits into a successful step and a
successful continuation. -/
theorem exceptBind_ok {α β : Type} {x : Except String α} {f : α → Except String β}
    {b : β} (h : (x >>= f) = Except.ok b) : ∃ a, x = Except.ok a ∧ f a = Except.ok b := by
  cases x with
  | error m => exact absurd h (by simp [Bind.bind, Except.bind])
  | ok a => exact ⟨a, rfl, by simpa [Bind.bind, Except.bind] using h⟩

/-- A successful dict lookup means the key is present. -/
theorem dictGet_ok_hasKey {dic : List (String × String)} {k v : String}
    (h : dictGet dic k = Except.ok v) : hasKey dic k = true := by
  unfold dictGet at h
  unfold hasKey
  cases hf : dic.find? fun p => p.1 == k with
  | none => rw [hf] at h; exact absurd h (by simp)
  | some p => simp [hf]

/-- A record constructed successfully from a mapping has all nine required
keys. -/
theorem ofDict_ok_hasKey {dic : List (String × String)} {e : Entry}
    (h : Entry.ofDict dic = Except.ok e) : ∀ k ∈ requiredKeys, hasKey dic k = true := by
  unfold Entry.ofDict at h
  obtain ⟨v1, h1, h⟩ := exceptBind_ok h
  obtain ⟨v2, h2, h⟩ := exceptBind_ok h
  obtain ⟨v3, h3, h⟩ := exceptBind_ok h
  obtain ⟨v4, h4, h⟩ := exceptBind_ok h
  obtain ⟨v5, h5, h⟩ := exceptBind_ok h
  obtain ⟨v6, h6, h⟩ := exceptBind_ok h
  obtain ⟨v7, h7, h⟩ := exceptBind_ok h
  obtain ⟨v8, h8, h⟩ := exceptBind_ok h
  obtain ⟨v9, h9, h⟩ := exceptBind_ok h
  intro k hk
  simp only [requiredKeys, List.mem_cons, List.not_mem_nil, or_false] at hk
  rcases hk with rfl | rfl | rfl | rfl | rfl | rfl | rfl | rfl | rfl
  · exact dictGet_ok_hasKey h1
  · exact dictGet_ok_hasKey h2
  · exact dictGet_ok_hasKey h3
  · exact dictGet_ok_hasKey h4
  · exact dictGet_ok_hasKey h5
  · exact dictGet_ok_hasKey h6
  · exact dictGet_ok_hasKey h7
  · exact dictGet_ok_hasKey h8
  · exact dictGet_ok_hasKey h9

/-- When the whole batch constructs successfully, every mapping in it
constructed an `Entry` successfully. -/
theorem validatorEntries_ok {ds : List (List (String × String))} {es : List Entry}
    (h : validatorEntries ds = Except.ok es) :
    ∀ dic ∈ ds, ∃ e, Entry.ofDict dic = Except.ok e := by
  induction ds generalizing es with
  | nil => intro dic hd; cases hd
  | cons d rest ih =>
      intro dic hd
      unfold validatorEntries at h
      obtain ⟨e, he, h⟩ := exceptBind_ok h
      obtain ⟨es2, hes, _⟩ := exceptBind_ok h
      rcases List.mem_cons.mp hd with rfl | hd2
      · exact ⟨e, he⟩
      · exact ih hes dic hd2

/-- Claim C7: when any mapping of the batch lacks one of the nine required
keys, building the validator's entry list fails with an error for the whole
batch: no entry list is produced. -/
theorem c7_missing_key_aborts (dics : List (List (String × String)))
    (h : ∃ dic ∈ dics, ∃ k ∈ requiredKeys, hasKey dic k = false) :
    ∃ msg, validatorEntries dics = Except.error msg := by
  obtain ⟨dic, hdic, k, hk, hfalse⟩ := h
  cases hres : validatorEntries dics with
  | error msg => exact ⟨msg, rfl⟩
  | ok es =>
      obtain ⟨e, he⟩ := validatorEntries_ok hres dic hdic
      have := ofDict_ok_hasKey he k hk
      rw [hfalse] at this
      cases this

/-- Witness for `c7_missing_key_aborts` at a one-record batch whose mapping
holds only the `telephone` key. -/
theorem c7_missing_key_aborts_witness :
    (∃ dic ∈ [[("telephone", "x")]], ∃ k ∈ requiredKeys, hasKey dic k = false) ∧
    ∃ msg, validatorEntries [[("telephone", "x")]] = Except.error msg :=
  ⟨by decide, c7_missing_key_aborts [[("telephone", "x")]] (by decide)⟩

/-- A successful count bump keeps the key column and raises the count sum by
one. -/
theorem bumpCount_ok (d : List (String × Nat)) (k : String)
    (hk : k ∈ d.map Prod.fst) :
    ∃ d2, bumpCount d k = Except.ok d2 ∧
      d2.map Prod.fst = d.map Prod.fst ∧
      (d2.map Prod.snd).sum = (d.map Prod.snd).sum + 1 := by
  induction d with
  | nil => simp at hk
  | cons p rest ih =>
      by_cases h : p.1 = k
      · refine ⟨(p.1, p.2 + 1) :: rest, by simp [bumpCount, h], by simp, ?_⟩
        simp only [List.map_cons, List.sum_cons]
        omega
      · have hk2 : k ∈ rest.map Prod.fst := by
          simp only [List.map_cons, List.mem_cons] at hk
          rcases hk with rfl | hk2
          · exact absurd rfl h
          · exact hk2
        obtain ⟨d2, hd2, hfst, hsum⟩ := ih hk2
        refine ⟨p :: d2, ?_, by simp [hfst], ?_⟩
        · simp [bumpCount, h, hd2, Bind.bind, Except.bind, Pure.pure, Except.pure]
        · simp only [List.map_cons, List.sum_cons, hsum]
          omega

/-- The inner loop of `show_summary` over one failing-key list: when every
key is present in the counts dict, it succeeds, adds the list's length to
the total and to the count sum, and keeps the key column. -/
theorem summary_inner (l : List String) (t : Nat) (d : List (String × Nat))
    (h : ∀ k ∈ l, k ∈ d.map Prod.fst) :
    ∃ d2, l.foldlM summaryStep (t, d) = Except.ok (t + l.length, d2) ∧
      d2.map Prod.fst = d.map Prod.fst ∧
      (d2.map Prod.snd).sum = (d.map Prod.snd).sum + l.length := by
  induction l generalizing t d with
  | nil => exact ⟨d, rfl, rfl, by simp⟩
  | cons k rest ih =>
      obtain ⟨d1, hd1, hfst1, hsum1⟩ := bumpCount_ok d k (h k (by simp))
      obtain ⟨d2, hd2, hfst2, hsum2⟩ :=
        ih (t + 1) d1 fun k2 hk2 => hfst1 ▸ h k2 (List.mem_cons_of_mem _ hk2)
      refine ⟨d2, ?_, by rw [hfst2, hfst1],
        by rw [hsum2, hsum1]; simp only [List.length_cons]; omega⟩
      rw [List.foldlM_cons]
      have hstep : summaryStep (t, d) k = Except.ok (t + 1, d1) := by
        simp [summaryStep, hd1, Bind.bind, Except.bind, Pure.pure, Except.pure]
      rw [hstep]
      show rest.foldlM summaryStep (t + 1, d1) = _
      rw [hd2, List.length_cons, show t + 1 + rest.length = t + (rest.length + 1) by omega]

/-- The outer loop of `show_summary`: when every key of every list is
present in the counts dict, it succeeds, the total grows by the number of
keys, the count sum matches, and the key column is kept. -/
theorem summary_outer (res : List (List String)) (t : Nat) (d : List (String × Nat))
    (h : ∀ l ∈ res, ∀ k ∈ l, k ∈ d.map Prod.fst) :
    ∃ d2, res.foldlM (fun st i => i.foldlM summaryStep st) (t, d) =
        Except.ok (t + (res.map List.length).sum, d2) ∧
      d2.map Prod.fst = d.map Prod.fst ∧
      (d2.map Prod.snd).sum = (d.map Prod.snd).sum + (res.map List.length).sum := by
  induction res generalizing t d with
  | nil => exact ⟨d, rfl, rfl, by simp⟩
  | cons l rest ih =>
      obtain ⟨d1, hd1, hfst1, hsum1⟩ := summary_inner l t d (h l (by simp))
      obtain ⟨d2, hd2, hfst2, hsum2⟩ := ih (t + l.length) d1
        fun l2 hl2 k hk => hfst1 ▸ h l2 (List.mem_cons_of_mem _ hl2) k hk
      refine ⟨d2, ?_, by rw [hfst2, hfst1],
        by rw [hsum2, hsum1]; simp only [List.map_cons, List.sum_cons]; omega⟩
      rw [List.foldlM_cons, hd1]
      show rest.foldlM _ (t + l.length, d1) = _
      rw [hd2, List.map_cons, List.sum_cons,
        show t + l.length + (rest.map List.length).sum
            = t + (l.length + (rest.map List.length).sum) by omega]

/-- Every key reported by `parse_entry` is one of the summary's nine keys. -/
theorem parse_entry_keys (e : Entry) : ∀ k ∈ parse_entry e, k ∈ summaryKeys := by
  intro k hk
  unfold parse_entry at hk
  split at hk
  · simp_all [summaryKeys]
  split at hk
  · simp_all [summaryKeys]
  split at hk
  · simp_all [summaryKeys]
  split at hk
  · simp_all [summaryKeys]
  split at hk
  · simp_all [summaryKeys]
  split at hk
  · simp_all [summaryKeys]
  split at hk
  · simp_all [summaryKeys]
  split at hk
  · simp_all [summaryKeys]
  split at hk
  · simp_all [summaryKeys]
  simp at hk

/-- Claim C8: on any classification result, the summary succeeds, lists
exactly the nine fields in the fixed order `summaryKeys` (zero counts
included), the per-field counts sum to the reported total, and the file
output lists the fields as the console output does, line for line. -/
theorem c8_summary (entries : List Entry) :
    ∃ total counts,
      show_summary (parse entries).1 = Except.ok (total, counts) ∧
      counts.map Prod.fst = summaryKeys ∧
      (counts.map Prod.snd).sum = total ∧
      (summaryLinesFile total counts).drop 1 =
        ((summaryLinesConsole total counts).drop 2).map fun line => line ++ "\n" := by
  have hkeys : ∀ l ∈ (parse entries).1, ∀ k ∈ l, k ∈ initialCounts.map Prod.fst := by
    intro l hl k hk
    have h1 : (parse entries).1 =
        ((entries.filter fun e => !(parse_entry e).isEmpty).map parse_entry) := by
      rw [parse, parse_foldl]; simp
    rw [h1] at hl
    obtain ⟨e, _, rfl⟩ := List.mem_map.mp hl
    have := parse_entry_keys e k hk
    simpa [initialCounts, summaryKeys] using this
  obtain ⟨counts, hok, hfst, hsum⟩ := summary_outer (parse entries).1 0 initialCounts hkeys
  refine ⟨((parse entries).1.map List.length).sum, counts, ?_, ?_, ?_, ?_⟩
  · rw [show_summary]; simpa using hok
  · rw [hfst]; rfl
  · rw [hsum]; simp [initialCounts]
  · simp [summaryLinesFile, summaryLinesConsole, List.map_map, Function.comp]

end Lab2
